import Mathlib

/-!
Verification of the Affinity operations-assistant core: a shallow embedding
of the Python sources (value coercion engine, v1/v2 API clients, tool
dispatcher and agent loop) together with proofs about the embedded
operations.
-/

namespace Affinity

/-- Python/JSON-style dynamic values, as the clients pass them around.
Floats are kept as their literal source text: no claim performs float
arithmetic, only the success/failure of `float(...)` parsing matters. -/
inductive Val where
  | vnone
  | vbool (b : Bool)
  | vint (n : Int)
  | vfloat (lit : String)
  | vstr (s : String)
  | vlist (xs : List Val)
  | vobj (kvs : List (String × Val))

/-- Whitespace stripped from both ends of a character list. -/
def charStrip (cs : List Char) : List Char :=
  ((cs.dropWhile Char.isWhitespace).reverse.dropWhile Char.isWhitespace).reverse

/-- Python `str.strip()`: whitespace removed from both ends. -/
def pyStrip (s : String) : String := ⟨charStrip s.data⟩

/-- Python `str.lower()` on the ASCII range. -/
def pyLower (s : String) : String := ⟨s.data.map Char.toLower⟩

/-- Split a character list on a separator character (Python
`str.split(sep)` with a one-character separator). -/
def charSplitOn (sep : Char) : List Char → List Char → List (List Char)
  | [], cur => [cur.reverse]
  | c :: rest, cur =>
      if c == sep then cur.reverse :: charSplitOn sep rest []
      else charSplitOn sep rest (c :: cur)

/-- Python `s.split(sep)` for a one-character separator. -/
def pySplit (sep : Char) (s : String) : List String :=
  (charSplitOn sep s.data []).map (fun cs => ⟨cs⟩)

/-- `normalize` in `_coerce_value_for_field`: `str(s).strip().lower()`,
here for values that are already strings. -/
def normStr (s : String) : String := pyLower (pyStrip s)

mutual
/-- Python `str(x)` for dynamic values. Scalars follow Python exactly;
containers are rendered structurally (Python would additionally repr-quote
nested strings, which no claim ever evaluates). -/
def pyStr : Val → String
  | .vnone => "None"
  | .vbool true => "True"
  | .vbool false => "False"
  | .vint n => toString n
  | .vfloat lit => lit
  | .vstr s => s
  | .vlist xs => "[" ++ pyStrList xs ++ "]"
  | .vobj kvs => "\x7b" ++ pyStrObj kvs ++ "\x7d"

def pyStrList : List Val → String
  | [] => ""
  | [v] => pyStr v
  | v :: rest => pyStr v ++ ", " ++ pyStrList rest

def pyStrObj : List (String × Val) → String
  | [] => ""
  | [kv] => kv.1 ++ ": " ++ pyStr kv.2
  | kv :: rest => kv.1 ++ ": " ++ pyStr kv.2 ++ ", " ++ pyStrObj rest
end

mutual
/-- `json.dumps` for dynamic values, used when the agent loop serializes a
tool result into a tool-role message (string escaping elided: no claim
inspects the serialized text). -/
def jsonDumps : Val → String
  | .vnone => "null"
  | .vbool true => "true"
  | .vbool false => "false"
  | .vint n => toString n
  | .vfloat lit => lit
  | .vstr s => "\"" ++ s ++ "\""
  | .vlist xs => "[" ++ jsonDumpsList xs ++ "]"
  | .vobj kvs => "\x7b" ++ jsonDumpsObj kvs ++ "\x7d"

def jsonDumpsList : List Val → String
  | [] => ""
  | [v] => jsonDumps v
  | v :: rest => jsonDumps v ++ ", " ++ jsonDumpsList rest

def jsonDumpsObj : List (String × Val) → String
  | [] => ""
  | [kv] => "\"" ++ kv.1 ++ "\": " ++ jsonDumps kv.2
  | kv :: rest => "\"" ++ kv.1 ++ "\": " ++ jsonDumps kv.2 ++ ", " ++ jsonDumpsObj rest
end

/-- Python `needle in hay` for strings: contiguous substring test. -/
def strIn (needle hay : String) : Bool :=
  (List.range (hay.data.length + 1)).any (fun i => needle.data.isPrefixOf (hay.data.drop i))

/-- Python `s.isdigit()` restricted to ASCII digits: nonempty and all
characters are digits. -/
def pyIsDigit (s : String) : Bool :=
  !s.data.isEmpty && s.data.all (fun c => c.isDigit)

/-- Value of an all-digit string. -/
def digitsToNat (s : String) : Nat :=
  s.data.foldl (fun a c => a * 10 + (c.toNat - 48)) 0

/-- Python `int(s)` on strings: optional surrounding whitespace, optional
sign, then one or more digits; anything else raises (`none`). Digit-group
underscores are not modelled. -/
def pyIntParse (s : String) : Option Int :=
  let t := charStrip s.data
  let core := if t.head? == some '-' || t.head? == some '+' then t.drop 1 else t
  if core.isEmpty || !core.all (fun c => c.isDigit) then Option.none
  else if t.head? == some '-' then some (-(digitsToNat ⟨core⟩ : Int))
  else some ((digitsToNat ⟨core⟩ : Int))

/-- Python `float(s)` recognizer for the plain decimal forms the coercion
engine can meet (the branch is only reached when `s` contains a dot); the
accepted value keeps its literal text. -/
def pyFloatParse (s : String) : Option Val :=
  let t := charStrip s.data
  let core := if t.head? == some '-' || t.head? == some '+' then t.drop 1 else t
  match charSplitOn '.' core [] with
  | [a, b] =>
      if a.isEmpty && b.isEmpty then Option.none
      else if a.all (fun c => c.isDigit) && b.all (fun c => c.isDigit) then
        some (.vfloat ⟨t⟩)
      else Option.none
  | _ => Option.none

/-- Python truthiness of an optional string (`None` and `""` are falsy). -/
def truthyStr : Option String → Bool
  | Option.none => false
  | some s => !s.isEmpty

/-! ## Value coercion engine (`AffinityAPI._coerce_value_for_field`) -/

/-- One dropdown option of a field. The source reads options as dicts and
skips entries whose `id` is missing when building its lookup; the embedding
works with the well-formed options the claims concern (`id` and `text`
present). -/
structure DropOption where
  id : Int
  text : String
deriving DecidableEq, Repr

/-- Field metadata as `_get_field_details` returns it. The source reads
`dropdown_options` with a fallback to `options`; the embedding keeps the
merged list. `value_type` stays dynamic because the source compares it both
to ints and to strings. -/
structure FieldRec where
  id : Int
  name : String
  value_type : Val
  dropdown_options : List DropOption

/-- Python dict-comprehension insert: a repeated key keeps its first
position but takes the last value. -/
def pyDictInsert (d : List (String × Int)) (k : String) (v : Int) : List (String × Int) :=
  if d.any (fun kv => kv.1 == k) then d.map (fun kv => if kv.1 == k then (k, v) else kv)
  else d ++ [(k, v)]

/-- `by_text = {normalize(o["text"]): int(o["id"]) for o in options}`. -/
def byTextOf (options : List DropOption) : List (String × Int) :=
  options.foldl (fun d o => pyDictInsert d (normStr o.text) o.id) []

/-- Dict key lookup (`key in by_text` / `by_text[key]`). -/
def pyDictGet (d : List (String × Int)) (k : String) : Option Int :=
  (d.find? (fun kv => kv.1 == k)).map (fun kv => kv.2)

/-- One step of the best-scoring scan of `closestOption`. -/
def closestStep (scorer : String → String → Rat) (s : String)
    (acc : Option (DropOption × Rat)) (o : DropOption) : Option (DropOption × Rat) :=
  match acc with
  | Option.none => some (o, scorer s o.text)
  | some (b, sc) => if sc < scorer s o.text then some (o, scorer s o.text) else some (b, sc)

/-- Modelled from the spec: `AffinityAPI._closest_option` is called by the
coercion engine but absent from the sources. Per the spec the fuzzy step
scores the value against every option text with a similarity scorer; the
scorer is a parameter here, and the best-scoring option is returned with
its score (the earliest option wins ties), `none` when there are no
options. -/
def closestOption (scorer : String → String → Rat) (options : List DropOption) (s : String) :
    Option (DropOption × Rat) :=
  options.foldl (closestStep scorer s) Option.none

/-- The similarity threshold (`min_score: float = 0.6`). -/
def minScoreDefault : Rat := 6 / 10

/-- `fuzzy_one`: accept the closest option only at or above the
threshold. -/
def fuzzyOne (scorer : String → String → Rat) (options : List DropOption) (s : String) :
    Option Int :=
  match closestOption scorer options s with
  | some (best, score) => if minScoreDefault ≤ score then some best.id else Option.none
  | Option.none => Option.none

/-- Coercion failure: the `RuntimeError` that lists the offending value and
every available option text (the spec's `ValueNotFoundError`). -/
inductive CoerceErr where
  | valueNotFound (value : String) (optionTexts : List String)

/-- Step 1 of the engine: with options present, a comma-containing string
becomes multi-select input (`[v.strip() for v in value.split(",") if
v.strip()]`). -/
def commaSplit (options : List DropOption) (value : Val) : Val :=
  match value with
  | .vstr s =>
      if !options.isEmpty && strIn "," s then
        .vlist ((((pySplit ',' s).map pyStrip).filter (fun t => !t.isEmpty)).map Val.vstr)
      else .vstr s
  | v => v

/-- The single-string dropdown block: exact (`key in by_text`), then
substring over the dict items, then all-digits literal option id, then
fuzzy, else raise listing the option texts. -/
def coerceSingleStr (scorer : String → String → Rat) (options : List DropOption)
    (byText : List (String × Int)) (s : String) : Except CoerceErr Val :=
  let key := normStr s
  match pyDictGet byText key with
  | some oid => .ok (.vint oid)
  | Option.none =>
    match byText.find? (fun kv => strIn key kv.1) with
    | some kv => .ok (.vint kv.2)
    | Option.none =>
      if pyIsDigit s then .ok (.vint (digitsToNat s : Int))
      else
        match fuzzyOne scorer options s with
        | some oid => .ok (.vint oid)
        | Option.none => .error (.valueNotFound s (options.map (fun o => o.text)))

/-- One element of the multi-select block: ints pass through, otherwise
exact, substring, fuzzy, else raise. `normalize(v)` goes through Python
`str()`. -/
def coerceMultiElem (scorer : String → String → Rat) (options : List DropOption)
    (byText : List (String × Int)) (v : Val) : Except CoerceErr Int :=
  match v with
  | .vint n => .ok n
  | v =>
    let vkey := normStr (pyStr v)
    match pyDictGet byText vkey with
    | some oid => .ok oid
    | Option.none =>
      match byText.find? (fun kv => strIn vkey kv.1) with
      | some kv => .ok kv.2
      | Option.none =>
        match fuzzyOne scorer options (pyStr v) with
        | some oid => .ok oid
        | Option.none => .error (.valueNotFound (pyStr v) (options.map (fun o => o.text)))

/-- The multi-select block: one resolved id per element, first failure
fails the whole call. -/
def coerceMulti (scorer : String → String → Rat) (options : List DropOption)
    (byText : List (String × Int)) : List Val → Except CoerceErr (List Int)
  | [] => .ok []
  | v :: rest =>
    match coerceMultiElem scorer options byText v with
    | .error e => .error e
    | .ok i =>
      match coerceMulti scorer options byText rest with
      | .error e => .error e
      | .ok out => .ok (i :: out)

/-- `value_type in (2, 3, "number", "float", "integer")`. -/
def isNumberVT : Val → Bool
  | .vint 2 => true
  | .vint 3 => true
  | .vstr s => s == "number" || s == "float" || s == "integer"
  | _ => false

/-- `value_type in (5, "boolean", "bool")`. -/
def isBoolVT : Val → Bool
  | .vint 5 => true
  | .vstr s => s == "boolean" || s == "bool"
  | _ => false

/-- The boolean block: the literal words map to booleans, anything else
falls through unchanged. Only strings are examined. -/
def coerceBoolTail (field : FieldRec) (value : Val) : Val :=
  match value with
  | .vstr s =>
      if isBoolVT field.value_type then
        if ["true", "yes", "y", "1"].contains (normStr s) then .vbool true
        else if ["false", "no", "n", "0"].contains (normStr s) then .vbool false
        else .vstr s
      else .vstr s
  | v => v

/-- The number block followed by the boolean block and the final
pass-through. A failing `int`/`float` parse is `except: pass`, falling to
the boolean block. Only strings are examined. -/
def coerceTail (field : FieldRec) (value : Val) : Val :=
  match value with
  | .vstr s =>
      if isNumberVT field.value_type then
        if strIn "." s then
          match pyFloatParse s with
          | some f => f
          | Option.none => coerceBoolTail field (.vstr s)
        else
          match pyIntParse s with
          | some n => .vint n
          | Option.none => coerceBoolTail field (.vstr s)
      else coerceBoolTail field (.vstr s)
  | v => v

/-- `AffinityAPI._coerce_value_for_field`, with the similarity scorer a
parameter (see `closestOption`). Branch order follows the source: comma
split, single-value dropdown (strings resolve, ints pass through
unvalidated), multi-select dropdown, then the number/boolean/pass-through
tail. A non-string non-int non-list value with options falls through every
dropdown block to the tail, which returns it unchanged, hence the final
catch-all arms. -/
def coerce_value_for_field (scorer : String → String → Rat) (field : FieldRec) (value0 : Val) :
    Except CoerceErr Val :=
  let options := field.dropdown_options
  let byText := byTextOf options
  match commaSplit options value0 with
  | .vstr s =>
      if options.isEmpty then .ok (coerceTail field (.vstr s))
      else coerceSingleStr scorer options byText s
  | .vint n => .ok (.vint n)
  | .vlist xs =>
      if options.isEmpty then .ok (.vlist xs)
      else
        match coerceMulti scorer options byText xs with
        | .ok ids => .ok (.vlist (ids.map Val.vint))
        | .error e => .error e
  | v => .ok v

/-! ## Field resolution (`AffinityAPI._get_field_details`) -/

/-- The `field_name_or_id : str | int` argument. -/
inductive FieldKey where
  | kint (n : Int)
  | kstr (s : String)

/-- Errors of the high-level v1 client operations (`RuntimeError`s in the
source, plus a wrapped coercion failure). -/
inductive ClientErr where
  | fieldIdNotFound (fieldId : Int) (listId : Int)
  | fieldNameNotFound (name : String) (listId : Int)
  | addFailed (organizationId : Int) (listId : Int)
  | coerceFailed (e : CoerceErr)

/-- `AffinityAPI._get_field_details`: numeric-looking keys are trusted as
ids but validated against the list's fields; textual keys match
case-insensitively, exact name first then substring, scanning in field
order. -/
def get_field_details (fields : List FieldRec) (listId : Int) (key : FieldKey) :
    Except ClientErr (FieldRec × Int) :=
  match key with
  | .kint n =>
      (match fields.find? (fun f => f.id == n) with
       | some f => .ok (f, n)
       | Option.none => .error (.fieldIdNotFound n listId))
  | .kstr s =>
      if pyIsDigit s then
        let n : Int := (digitsToNat s : Int)
        match fields.find? (fun f => f.id == n) with
        | some f => .ok (f, n)
        | Option.none => .error (.fieldIdNotFound n listId)
      else
        let target := normStr s
        match fields.find? (fun f => normStr f.name == target || strIn target (normStr f.name)) with
        | some f => .ok (f, f.id)
        | Option.none => .error (.fieldNameNotFound s listId)

/-! ## Remote state and the v1 list operations

The remote API behind `AffinityAPI` is modelled as a plain store for one
list: reads return it, creates append a fresh-id row, updates replace a
row's value in place. Pagination of `get_list_entries` collapses because
the model holds the full collection. -/

/-- One list entry row (`{id, entity_id}`). -/
structure EntryRec where
  id : Int
  entity_id : Int
deriving DecidableEq, Repr

/-- One field-value row. -/
structure FieldValueRec where
  id : Int
  field_id : Int
  entity_id : Int
  list_entry_id : Int
  value : Val

/-- The remote state the v1 client manipulates. -/
structure ServerState where
  entries : List EntryRec
  fields : List FieldRec
  fieldValues : List FieldValueRec
  nextEntryId : Int
  nextFieldValueId : Int

/-- `get_list_entries(list_id)`: every entry of the list. -/
def get_list_entries (s : ServerState) : List EntryRec := s.entries

/-- `get_list_entry_id`: scan the list's entries for the one bound to the
organization; `None` signals "not a member". -/
def get_list_entry_id (s : ServerState) (organizationId : Int) : Option Int :=
  (s.entries.find? (fun e => e.entity_id == organizationId)).map (fun e => e.id)

/-- `add_organization_to_list`: POST creates a fresh list entry
unconditionally. -/
def add_organization_to_list (s : ServerState) (organizationId : Int) :
    ServerState × EntryRec :=
  let e : EntryRec := { id := s.nextEntryId, entity_id := organizationId }
  ({ s with entries := s.entries ++ [e], nextEntryId := s.nextEntryId + 1 }, e)

/-- `add_organization_to_list_if_needed`: idempotent add — returns the
created entry if added, else `None` when already present. -/
def add_organization_to_list_if_needed (s : ServerState) (organizationId : Int) :
    ServerState × Option EntryRec :=
  match get_list_entry_id s organizationId with
  | some _ => (s, Option.none)
  | Option.none =>
      let r := add_organization_to_list s organizationId
      (r.1, some r.2)

/-- `get_field_values(organization_id=...)`. -/
def get_field_values (s : ServerState) (organizationId : Int) : List FieldValueRec :=
  s.fieldValues.filter (fun fv => fv.entity_id == organizationId)

/-- `update_field_value`: PUT replaces the value of the row with that id. -/
def update_field_value (s : ServerState) (fieldValueId : Int) (v : Val) : ServerState :=
  { s with
    fieldValues := s.fieldValues.map
      (fun fv => if fv.id == fieldValueId then { fv with value := v } else fv) }

/-- `create_field_value`: POST appends a fresh row. -/
def create_field_value (s : ServerState) (fieldId : Int) (v : Val)
    (entityId listEntryId : Int) : ServerState × FieldValueRec :=
  let fv : FieldValueRec :=
    { id := s.nextFieldValueId
      field_id := fieldId
      entity_id := entityId
      list_entry_id := listEntryId
      value := v }
  ({ s with fieldValues := s.fieldValues ++ [fv], nextFieldValueId := s.nextFieldValueId + 1 }, fv)

/-- The membership-ensuring prefix of `change_field_value_in_list`: reuse
the entry if present, else add idempotently and re-read, raising if the
entry still cannot be found. -/
def ensureMembership (s : ServerState) (organizationId listId : Int) :
    Except ClientErr (ServerState × Int) :=
  match get_list_entry_id s organizationId with
  | some le => .ok (s, le)
  | Option.none =>
      let r := add_organization_to_list_if_needed s organizationId
      match get_list_entry_id r.1 organizationId with
      | some le => .ok (r.1, le)
      | Option.none => .error (.addFailed organizationId listId)

/-- Whether `change_field_value_in_list` ended in a PUT on an existing
field value or a POST creating one. -/
inductive ChangeResult where
  | updated (fieldValueId : Int)
  | created (fieldValueId : Int)
deriving DecidableEq, Repr

/-- `AffinityAPI.change_field_value_in_list`: ensure membership, resolve
the field, coerce the value, then update the first existing field value
for (field, list-entry) if any, else create one. -/
def change_field_value_in_list (scorer : String → String → Rat) (s : ServerState)
    (listId organizationId : Int) (fieldKey : FieldKey) (value : Val) :
    Except ClientErr (ServerState × ChangeResult) :=
  match ensureMembership s organizationId listId with
  | .error e => .error e
  | .ok (s1, leId) =>
    match get_field_details s1.fields listId fieldKey with
    | .error e => .error e
    | .ok (field, fieldId) =>
      match coerce_value_for_field scorer field value with
      | .error e => .error (.coerceFailed e)
      | .ok coerced =>
        match (get_field_values s1 organizationId).filter
            (fun fv => fv.field_id == fieldId && fv.list_entry_id == leId) with
        | fv0 :: _ => .ok (update_field_value s1 fv0.id coerced, .updated fv0.id)
        | [] =>
            let r := create_field_value s1 fieldId coerced organizationId leId
            .ok (r.1, .created r.2.id)

/-! ## Transports

The HTTP layer is modelled by the response the server gives to each
request; a body is either empty, parseable JSON, or raw non-JSON text. -/

/-- A response body. `raw` stands for nonempty non-JSON text. -/
inductive Body where
  | empty
  | json (v : Val)
  | raw (s : String)

/-- `resp.content` truthiness / nonempty `r.text`. By convention `raw`
carries nonempty text, so only `empty` is falsy. -/
def Body.nonempty : Body → Bool
  | .empty => false
  | _ => true

/-- `try: resp.json() except: resp.text` (an empty body makes `json()`
raise and `text` is `""`). -/
def jsonOrText : Body → Val
  | .empty => .vstr ""
  | .json v => v
  | .raw s => .vstr s

/-- One HTTP response. -/
structure HttpResp where
  status : Nat
  body : Body

/-- What `AffinityAPI._request` produces. -/
inductive V1Outcome where
  | ok (v : Val)
  | apiError (status : Nat) (err : Val)
  | httpError (status : Nat)

/-- The statuses `AffinityAPI._request` treats as transient. -/
def isTransientStatus (s : Nat) : Bool :=
  s == 429 || s == 500 || s == 502 || s == 503 || s == 504

/-- The retry loop of `AffinityAPI._request`. `responses` maps the attempt
number to the response the server gives; `left` is the number of loop
iterations remaining (`range(retries)`), `attempt` the next attempt index,
`backoff` the current sleep duration. Besides the outcome it returns the
number of HTTP requests made and the list of sleeps performed. When the
range is exhausted the source calls `resp.raise_for_status()` on the last
(necessarily transient-status) response. -/
def requestGo (responses : Nat → HttpResp) :
    Nat → Nat → Rat → List Rat → V1Outcome × Nat × List Rat
  | 0, attempt, _, sleeps =>
      (.httpError (responses (attempt - 1)).status, attempt, sleeps)
  | left + 1, attempt, backoff, sleeps =>
      let resp := responses attempt
      if isTransientStatus resp.status then
        requestGo responses left (attempt + 1) (backoff * 2) (sleeps ++ [backoff])
      else if decide (400 ≤ resp.status) then
        (.apiError resp.status (jsonOrText resp.body), attempt + 1, sleeps)
      else if resp.body.nonempty then
        (.ok (jsonOrText resp.body), attempt + 1, sleeps)
      else
        (.ok Val.vnone, attempt + 1, sleeps)

/-- `AffinityAPI._request` (basic-auth key client): up to `retries`
attempts, exponential backoff starting at 1 second. Note the empty-body
success path returns `None`. -/
def request (responses : Nat → HttpResp) (retries : Nat) : V1Outcome × Nat × List Rat :=
  requestGo responses retries 0 1 []

/-- The classified errors `AffinityV2._req` (affinity/client_v2.py)
raises. `jsonDecode` stands for `r.json()` raising on non-JSON success
text. -/
inductive V2Err where
  | keyMissing
  | unauthorized (body : Body)
  | forbidden (body : Body)
  | rateLimited (body : Body)
  | clientError (status : Nat) (body : Body)
  | serverError (status : Nat) (body : Body)
  | jsonDecode (s : String)

/-- `AffinityV2._req` (affinity/client_v2.py, bearer token): exactly one
HTTP request, no retry; 204/205 and empty-text successes return the empty
object; error statuses raise classified errors. The second component is
the number of HTTP requests made (`_check` raises before any request when
the key is absent). -/
def v2_req (apiKeyPresent : Bool) (resp : HttpResp) : Except V2Err Val × Nat :=
  if !apiKeyPresent then (.error .keyMissing, 0)
  else if resp.status == 204 || resp.status == 205 then (.ok (Val.vobj []), 1)
  else if decide (resp.status < 400) then
    (match resp.body with
     | .empty => .ok (Val.vobj [])
     | .json v => .ok v
     | .raw s => .error (.jsonDecode s), 1)
  else if resp.status == 401 then (.error (.unauthorized resp.body), 1)
  else if resp.status == 403 then (.error (.forbidden resp.body), 1)
  else if resp.status == 429 then (.error (.rateLimited resp.body), 1)
  else if decide (resp.status < 500) then (.error (.clientError resp.status resp.body), 1)
  else (.error (.serverError resp.status resp.body), 1)

/-! ## List search (`find_list_id_by_name`, both variants) -/

/-- One list record of a `/v2/lists` page. -/
structure ListRec where
  id : Int
  name : Option String
  type : String
deriving DecidableEq, Repr

/-- One page of `/v2/lists`: its data plus `pagination.nextUrl`. -/
structure ListsPage where
  data : List ListRec
  nextUrl : Option String

/-- The matches one page contributes:
`name.lower() in (lst.get("name") or "").lower()`, projected onto
`{id, name, type}`. -/
def pageMatches (name : String) (page : ListsPage) : List ListRec :=
  (page.data.filter (fun l => strIn (pyLower name) (pyLower (l.name.getD "")))).map
    (fun l => { id := l.id, name := l.name, type := l.type })

/-- The loop of `AffinityV2.find_list_id_by_name`
(affinity/client_v2.py): fetch a page, collect matches, extract the next
cursor from `pagination.nextUrl` (URL query parsing abstracted as
`extract`), increment `seen`, stop when the cursor is falsy or
`seen > 25`. One fuel unit is one page request; `none` means the loop was
still running when the fuel ran out, otherwise the accumulated matches and
the number of pages fetched are returned. -/
def findListGo (fetch : Option String → ListsPage) (extract : Option String → Option String)
    (name : String) : Nat → Option String → List ListRec → Nat → Option (List ListRec × Nat)
  | 0, _, _, _ => Option.none
  | fuel + 1, cursor, acc, seen =>
      let page := fetch cursor
      let acc2 := acc ++ pageMatches name page
      let cursor2 := extract page.nextUrl
      let seen2 := seen + 1
      if !truthyStr cursor2 || decide (25 < seen2) then some (acc2, seen2)
      else findListGo fetch extract name fuel cursor2 acc2 seen2

/-- `AffinityV2.find_list_id_by_name` (affinity/client_v2.py) under a fuel
bound on loop iterations. -/
def find_list_id_by_name (fetch : Option String → ListsPage)
    (extract : Option String → Option String) (name : String) (fuel : Nat) :
    Option (List ListRec × Nat) :=
  findListGo fetch extract name fuel Option.none [] 0

/-- The loop of `find_list_id_by_name` from client_v2.py: same matching,
but the raw `pagination.nextUrl` becomes the next cursor and there is no
page ceiling — the loop stops only when `nextUrl` is falsy. -/
def findListGoUnbounded (fetch : Option String → ListsPage) (name : String) :
    Nat → Option String → List ListRec → Option (List ListRec × Nat)
  | 0, _, _ => Option.none
  | fuel + 1, cursor, acc =>
      let page := fetch cursor
      let acc2 := acc ++ pageMatches name page
      let cursor2 := page.nextUrl
      if !truthyStr cursor2 then some (acc2, 0)
      else findListGoUnbounded fetch name fuel cursor2 acc2

/-! ## Company search (`find_company`, both variants) -/

/-- One company record of a `/v2/companies` page. -/
structure CompanyRec where
  id : Int
  name : Option String
  domain : Option String
  domains : List String
deriving DecidableEq, Repr

/-- One page of `/v2/companies`. -/
structure CompaniesPage where
  data : List CompanyRec
  nextUrl : Option String

/-- The `{id, name, domain}` projection appended to the results. -/
structure CompanyMatch where
  id : Int
  name : Option String
  domain : Option String
deriving DecidableEq, Repr

def companyEntry (c : CompanyRec) : CompanyMatch :=
  { id := c.id, name := c.name, domain := c.domain }

/-- `name and name.lower() in cname`. -/
def nameMatches (name : Option String) (c : CompanyRec) : Bool :=
  truthyStr name && strIn (pyLower (name.getD "")) (pyLower (c.name.getD ""))

/-- `domain and (domain.lower() == cdom or domain.lower() in domains)`,
where `domains` is the space-joined lowered secondary domains. -/
def domainMatches (domain : Option String) (c : CompanyRec) : Bool :=
  truthyStr domain &&
    (pyLower (domain.getD "") == pyLower (c.domain.getD "") ||
      strIn (pyLower (domain.getD "")) (pyLower (String.intercalate " " c.domains)))

/-- Page scan of `find_company` in client_v2.py: two independent appends,
one per criterion, so a company matching both is appended twice. -/
def plainPageScan (name domain : Option String) (cs : List CompanyRec) : List CompanyMatch :=
  cs.foldl
    (fun acc c =>
      let acc1 := if nameMatches name c then acc ++ [companyEntry c] else acc
      if domainMatches domain c then acc1 ++ [companyEntry c] else acc1)
    []

/-- Page scan of `AffinityV2.find_company` (affinity/client_v2.py): one
`match` flag, a single append per company. -/
def affinityPageScan (name domain : Option String) (cs : List CompanyRec) : List CompanyMatch :=
  cs.foldl
    (fun acc c =>
      if nameMatches name c || domainMatches domain c then acc ++ [companyEntry c] else acc)
    []

/-- `find_company` from client_v2.py: argument check, then a scan of the
first page only — the while loop breaks unconditionally after one
iteration. -/
def plain_find_company (fetch : Option String → CompaniesPage) (name domain : Option String) :
    Except String (List CompanyMatch) :=
  if !truthyStr name && !truthyStr domain then .error "Provide name or domain"
  else
    let page := fetch Option.none
    .ok (plainPageScan name domain page.data)

/-- The loop of `AffinityV2.find_company` (affinity/client_v2.py): paginate
with cursor extraction and stop when the cursor is falsy or
`pages >= max_pages`. Fuel as in `findListGo`. -/
def findCompanyGo (fetch : Option String → CompaniesPage)
    (extract : Option String → Option String) (name domain : Option String) (maxPages : Nat) :
    Nat → Option String → List CompanyMatch → Nat → Option (List CompanyMatch × Nat)
  | 0, _, _, _ => Option.none
  | fuel + 1, cursor, acc, pages =>
      let page := fetch cursor
      let acc2 := acc ++ affinityPageScan name domain page.data
      let cursor2 := extract page.nextUrl
      let pages2 := pages + 1
      if !truthyStr cursor2 || decide (maxPages ≤ pages2) then some (acc2, pages2)
      else findCompanyGo fetch extract name domain maxPages fuel cursor2 acc2 pages2

/-- `AffinityV2.find_company` (affinity/client_v2.py). -/
def affinity_find_company (fetch : Option String → CompaniesPage)
    (extract : Option String → Option String) (name domain : Option String)
    (maxPages fuel : Nat) : Except String (Option (List CompanyMatch × Nat)) :=
  if !truthyStr name && !truthyStr domain then .error "Provide name or domain"
  else .ok (findCompanyGo fetch extract name domain maxPages fuel Option.none [] 0)

/-! ## Tool dispatcher (`agent/tools.py`) -/

/-- A Python exception crossing a call boundary: `dispatch_tool`
distinguishes `PermissionError` from every other `Exception`. The carried
string is `str(e)`. -/
inductive PyErr where
  | permission (msg : String)
  | exn (msg : String)

def PyErr.msg : PyErr → String
  | .permission m => m
  | .exn m => m

/-- A computation that may raise. -/
abbrev Raises (α : Type) := Except PyErr α

/-- The dispatcher's collaborators as oracles: `parse schema argsJson`
stands for `_parse(model_cls, args_json)` (json.loads plus pydantic
validation, either of which may raise); `parseFindCompany` additionally
surfaces the parsed optional name/domain, which the fallback branch
consults; each handler field stands for the corresponding client method
call on the already-parsed arguments; `v1Present` models the `if not v1`
checks. -/
structure DispatchEnv where
  parse : String → String → Raises Unit
  parseFindCompany : String → Raises (Option String × Option String)
  v1Present : Bool
  v1_create_company : Raises Val
  v1_create_company_note : Raises Val
  v1_add_company_to_list : Raises Val
  v1_search_companies : Raises Val
  v2_get_company_notes : Raises Val
  v2_update_list_field : Raises Val
  v2_batch_update_list_fields : Raises Val
  v2_find_list_id_by_name : Raises Val
  v2_find_company : Raises Val
  v2_whoami : Raises Val

/-- `{"error": msg}`. -/
def errObj (msg : String) : Val := .vobj [("error", .vstr msg)]

/-- The action names the dispatcher routes. -/
def knownToolNames : List String :=
  ["add_company", "add_note_to_company", "read_notes_for_company", "add_company_to_list",
   "update_list_field", "batch_update_list_fields", "find_list_id_by_name", "find_company_id",
   "auth_whoami"]

/-- The body of `dispatch_tool`'s try block: route by name, parse, check
the v1 capability gates, invoke the handler. An uncaught exception is the
`Except.error` case, handled by the enclosing `dispatch_tool`. The
`find_company_id` branch has its own inner handlers: a `PermissionError`
falls back to v1 search when possible (an exception inside that fallback
propagates to the outer handler), any other exception becomes a structured
error. -/
def dispatchBody (env : DispatchEnv) (name : String) (argsJson : String) : Raises Val :=
  if name == "add_company" then
    match env.parse "AddCompanyArgs" argsJson with
    | .error e => .error e
    | .ok _ =>
      if !env.v1Present then .ok (errObj "Affinity v1 key not configured; cannot create companies.")
      else env.v1_create_company
  else if name == "add_note_to_company" then
    match env.parse "AddNoteArgs" argsJson with
    | .error e => .error e
    | .ok _ =>
      if !env.v1Present then .ok (errObj "Affinity v1 key not configured; cannot add notes.")
      else env.v1_create_company_note
  else if name == "read_notes_for_company" then
    match env.parse "ReadNotesArgs" argsJson with
    | .error e => .error e
    | .ok _ => env.v2_get_company_notes
  else if name == "add_company_to_list" then
    match env.parse "AddCompanyToListArgs" argsJson with
    | .error e => .error e
    | .ok _ =>
      if !env.v1Present then .ok (errObj "Affinity v1 key not configured; cannot add to lists.")
      else env.v1_add_company_to_list
  else if name == "update_list_field" then
    match env.parse "UpdateFieldArgs" argsJson with
    | .error e => .error e
    | .ok _ => env.v2_update_list_field
  else if name == "batch_update_list_fields" then
    match env.parse "BatchUpdateFieldsArgs" argsJson with
    | .error e => .error e
    | .ok _ => env.v2_batch_update_list_fields
  else if name == "find_list_id_by_name" then
    match env.parse "FindListIdArgs" argsJson with
    | .error e => .error e
    | .ok _ => env.v2_find_list_id_by_name
  else if name == "find_company_id" then
    match env.parseFindCompany argsJson with
    | .error e => .error e
    | .ok (nm, dm) =>
      match env.v2_find_company with
      | .ok v => .ok v
      | .error (.permission e) =>
          if env.v1Present && (truthyStr nm || truthyStr dm) then
            let term := if truthyStr dm then dm.getD "" else nm.getD ""
            match env.v1_search_companies with
            | .ok r =>
                .ok (.vobj
                  [("warning", .vstr
                      ("v2 companies listing not permitted; fell back to v1 search for term=" ++
                        term)),
                   ("v1_results", r)])
            | .error e2 => .error e2
          else .ok (errObj e)
      | .error (.exn e) => .ok (errObj ("find_company_id failed: " ++ e))
  else if name == "auth_whoami" then
    match env.parse "WhoAmIArgs" argsJson with
    | .error e => .error e
    | .ok _ => env.v2_whoami
  else .ok (errObj ("Unknown tool " ++ name))

/-- `dispatch_tool`: the whole body is wrapped in
`try ... except Exception as e: return {"error": f"Tool dispatcher error:
{e}"}`, so the function always returns a structured value. -/
def dispatch_tool (env : DispatchEnv) (name : String) (argsJson : String) : Val :=
  match dispatchBody env name argsJson with
  | .ok v => v
  | .error e => errObj ("Tool dispatcher error: " ++ e.msg)

/-! ## Agent loop (`agent/openai_agent.py`) -/

/-- One model-issued tool call. -/
structure ToolCall where
  id : String
  type : String
  name : String
  arguments : String
deriving DecidableEq, Repr

/-- One chat-completions message as `Agent.run` builds them. -/
inductive ChatMsg where
  | system (content : String)
  | user (content : String)
  | assistant (content : String)
  | assistantToolCalls (content : String) (toolCalls : List ToolCall)
  | toolResult (toolCallId : String) (name : String) (content : String)
deriving DecidableEq, Repr

/-- The model's reply: optional text content plus requested tool calls
(an empty list is Python-falsy `tool_calls`). -/
structure ModelMsg where
  content : Option String
  tool_calls : List ToolCall

/-- An input message of `Agent.run` (`{"role": ..., "content": ...}`). -/
structure InMsg where
  role : String
  content : String

/-- One trace event (`{"name", "args", "result"}`). -/
structure Event where
  name : String
  args : String
  result : Val

/-- The conversation seeding of `Agent.run`: system/user/assistant roles
are copied in order, anything else is dropped. -/
def seedMessages (messages : List InMsg) : List ChatMsg :=
  messages.filterMap
    (fun m =>
      if m.role == "system" then some (.system m.content)
      else if m.role == "user" then some (.user m.content)
      else if m.role == "assistant" then some (.assistant m.content)
      else Option.none)

/-- `x or default` on an optional string (`None` and `""` are falsy). -/
def pyOr (o : Option String) (dflt : String) : String :=
  match o with
  | some s => if s.isEmpty then dflt else s
  | Option.none => dflt

/-- Tool-result content: `result if isinstance(result, str) else
json.dumps(result)`. -/
def toolContent : Val → String
  | .vstr s => s
  | v => jsonDumps v

/-- The `while True` loop of `Agent.run`, indexed by fuel: one fuel unit is
one model invocation, and `none` means the loop was still running when the
fuel ran out — `Agent.run` takes no turn bound of its own. `model` is the
chat-completions call; `dispatch` is `dispatch_tool` with the two clients
bound. When the model requests tools, the assistant message with its tool
calls is appended, each tool is dispatched sequentially in order, each
result is appended as a tool message and recorded as a trace event, and
the loop continues. -/
def runGo (model : List ChatMsg → ModelMsg) (dispatch : String → String → Val) :
    Nat → List ChatMsg → List Event → Option (String × List Event)
  | 0, _, _ => Option.none
  | fuel + 1, chat, events =>
      let msg := model chat
      match msg.tool_calls with
      | [] => some (pyOr msg.content "(no content)", events)
      | tcs =>
          let chat1 := chat ++ [ChatMsg.assistantToolCalls ((msg.content).getD "") tcs]
          let step := tcs.foldl
            (fun (p : List ChatMsg × List Event) tc =>
              let result := dispatch tc.name tc.arguments
              (p.1 ++ [ChatMsg.toolResult tc.id tc.name (toolContent result)],
               p.2 ++ [{ name := tc.name, args := tc.arguments, result := result }]))
            (chat1, events)
          runGo model dispatch fuel step.1 step.2

/-- `Agent.run` under a fuel bound: seed the conversation, then loop. -/
def Agent_run (model : List ChatMsg → ModelMsg) (dispatch : String → String → Val)
    (fuel : Nat) (messages : List InMsg) : Option (String × List Event) :=
  runGo model dispatch fuel (seedMessages messages) []

/-- A model that requests a tool call on every invocation. -/
def alwaysToolModel : List ChatMsg → ModelMsg :=
  fun _ =>
    { content := Option.none
      tool_calls := [{ id := "call_1", type := "function", name := "auth_whoami", arguments := "\x7b\x7d" }] }

/-! ## Concrete fixtures for witnesses and counterexamples -/

/-- An empty remote list. -/
def emptyListState : ServerState :=
  { entries := []
    fields := []
    fieldValues := []
    nextEntryId := 100
    nextFieldValueId := 500 }

/-- A one-field list whose organization 5 is entry 10 and already has a
value for field 7. -/
def fvListState : ServerState :=
  { entries := [{ id := 10, entity_id := 5 }]
    fields := [{ id := 7, name := "Status", value_type := .vstr "text", dropdown_options := [] }]
    fieldValues :=
      [{ id := 99
         field_id := 7
         entity_id := 5
         list_entry_id := 10
         value := .vstr "old" }]
    nextEntryId := 11
    nextFieldValueId := 100 }

/-- The scenario field of the spec:
`{type: dropdown, options: [{id:1,text:"Qualified"}, {id:2,text:"Turned Down"}]}`. -/
def qualifiedField : FieldRec :=
  { id := 1
    name := "Status"
    value_type := .vstr "dropdown"
    dropdown_options := [{ id := 1, text := "Qualified" }, { id := 2, text := "Turned Down" }] }

/-- A similarity scorer for the fuzzy witnesses: close to "Qualified",
far from everything else. -/
def witnessScorer : String → String → Rat :=
  fun _ t => if t == "Qualified" then 7 / 10 else 1 / 10

/-- A scorer below threshold everywhere. -/
def lowScorer : String → String → Rat := fun _ _ => 1 / 10

/-- A lists feed whose pagination never goes empty. -/
def endlessListsFeed : Option String → ListsPage :=
  fun _ => { data := [], nextUrl := some "https://api.affinity.co/v2/lists?cursor=c" }

/-- A cursor extractor that always finds a cursor (the never-exhausted
continuation of the claim). -/
def endlessExtract : Option String → Option String := fun _ => some "c"

/-- The 429, 429, 200 response sequence of the retry scenario. -/
def scenario429Responses : Nat → HttpResp :=
  fun n =>
    if n == 0 then { status := 429, body := .raw "rate limited" }
    else if n == 1 then { status := 429, body := .raw "rate limited" }
    else { status := 200, body := .json (.vobj [("id", .vint 42)]) }

/-- A single non-transient client-error response. -/
def notFoundResponses : Nat → HttpResp :=
  fun _ => { status := 404, body := .raw "missing" }

/-- A successful response with an empty body. -/
def emptyOkResponses : Nat → HttpResp :=
  fun _ => { status := 200, body := .empty }

/-- A dispatcher environment with trivially succeeding collaborators. -/
def trivialEnv : DispatchEnv :=
  { parse := fun _ _ => .ok ()
    parseFindCompany := fun _ => .ok (Option.none, Option.none)
    v1Present := false
    v1_create_company := .ok (.vobj [])
    v1_create_company_note := .ok (.vobj [])
    v1_add_company_to_list := .ok (.vobj [])
    v1_search_companies := .ok (.vobj [])
    v2_get_company_notes := .ok (.vobj [])
    v2_update_list_field := .ok (.vobj [])
    v2_batch_update_list_fields := .ok (.vobj [])
    v2_find_list_id_by_name := .ok (.vobj [])
    v2_find_company := .ok (.vobj [])
    v2_whoami := .ok (.vobj []) }

/-- A dispatcher environment whose whoami handler raises. -/
def raisingEnv : DispatchEnv :=
  { trivialEnv with v2_whoami := .error (.exn "boom") }

/-- A company matching both a name and a domain criterion. -/
def acmeCompany : CompanyRec :=
  { id := 3
    name := some "Acme Corp"
    domain := some "acme.com"
    domains := ["acme.com", "acme.io"] }

/-- A one-page companies feed containing only `acmeCompany`. -/
def acmeFeed : Option String → CompaniesPage :=
  fun _ => { data := [acmeCompany], nextUrl := Option.none }

/-! ## General lemmas -/

theorem find?_append_singleton {α : Type} (l : List α) (p : α → Bool) (e : α)
    (hl : l.find? p = Option.none) (he : p e = true) :
    (l ++ [e]).find? p = some e := by
  induction l with
  | nil => simp [List.find?, he]
  | cons a t ih =>
      have hpa : p a = false := by
        cases hp : p a with
        | false => rfl
        | true => simp [List.find?, hp] at hl
      simp only [List.cons_append, List.find?, hpa] at hl ⊢
      exact ih hl

/-! ## C1 — idempotent add-to-list -/

/-- C1: starting from a list with no entry for the organization, calling
`add_organization_to_list_if_needed` twice with the same arguments leaves
exactly one list entry bound to the organization; the first call returns
the created entry, and the second call performs no write (the state is
unchanged) and returns the absent marker `None` instead of creating a
duplicate row. -/
theorem add_if_needed_idempotent (s : ServerState) (o : Int)
    (h : (s.entries.filter (fun e => e.entity_id == o)).length = 0) :
    ((add_organization_to_list_if_needed
        (add_organization_to_list_if_needed s o).1 o).1.entries.filter
          (fun e => e.entity_id == o)).length = 1 ∧
    (add_organization_to_list_if_needed s o).2 = some { id := s.nextEntryId, entity_id := o } ∧
    (add_organization_to_list_if_needed
        (add_organization_to_list_if_needed s o).1 o).2 = Option.none ∧
    (add_organization_to_list_if_needed
        (add_organization_to_list_if_needed s o).1 o).1 =
      (add_organization_to_list_if_needed s o).1 := by
  have hnil : s.entries.filter (fun e => e.entity_id == o) = [] :=
    List.length_eq_zero.mp h
  have hnone : s.entries.find? (fun e => e.entity_id == o) = Option.none := by
    rw [List.find?_eq_none]
    intro x hx
    have hx2 := List.filter_eq_nil_iff.mp hnil x hx
    simpa using hx2
  have he : ((({ id := s.nextEntryId, entity_id := o } : EntryRec).entity_id == o)) = true := by
    simp
  have hfind2 :
      (s.entries ++ [({ id := s.nextEntryId, entity_id := o } : EntryRec)]).find?
        (fun e => e.entity_id == o) = some { id := s.nextEntryId, entity_id := o } :=
    find?_append_singleton _ _ _ hnone he
  have hfirst :
      add_organization_to_list_if_needed s o =
        ({ s with
            entries := s.entries ++ [{ id := s.nextEntryId, entity_id := o }]
            nextEntryId := s.nextEntryId + 1 },
          some { id := s.nextEntryId, entity_id := o }) := by
    simp [add_organization_to_list_if_needed, get_list_entry_id, hnone,
      add_organization_to_list]
  refine ⟨?_, ?_, ?_, ?_⟩
  · rw [hfirst]
    simp [add_organization_to_list_if_needed, get_list_entry_id, hfind2, List.filter_append,
      hnil, List.filter, he]
  · rw [hfirst]
  · rw [hfirst]
    simp [add_organization_to_list_if_needed, get_list_entry_id, hfind2]
  · rw [hfirst]
    simp [add_organization_to_list_if_needed, get_list_entry_id, hfind2]

/-- C1 witness: on an initially empty list and organization 7, the two
calls leave one entry, the first returns it, the second returns `None`
without writing. -/
theorem add_if_needed_idempotent_witness :
    ((add_organization_to_list_if_needed
        (add_organization_to_list_if_needed emptyListState 7).1 7).1.entries.filter
          (fun e => e.entity_id == 7)).length = 1 ∧
    (add_organization_to_list_if_needed emptyListState 7).2 =
      some { id := emptyListState.nextEntryId, entity_id := 7 } ∧
    (add_organization_to_list_if_needed
        (add_organization_to_list_if_needed emptyListState 7).1 7).2 = Option.none ∧
    (add_organization_to_list_if_needed
        (add_organization_to_list_if_needed emptyListState 7).1 7).1 =
      (add_organization_to_list_if_needed emptyListState 7).1 :=
  add_if_needed_idempotent emptyListState 7 (by decide)

/-! ## C4 — the agent loop has no turn bound -/

/-- C4 (divergence witness): against a model that requests a tool call on
every invocation, `Agent.run`'s `while True` loop never reaches a final
answer — for every fuel bound on the number of model invocations, the loop
is still running. The source accepts no externally supplied maximum turn
count that could stop it. -/
theorem agent_run_never_terminates :
    ∀ (dispatch : String → String → Val) (fuel : Nat) (messages : List InMsg),
      Agent_run alwaysToolModel dispatch fuel messages = Option.none := by
  intro dispatch
  have go : ∀ (fuel : Nat) (chat : List ChatMsg) (events : List Event),
      runGo alwaysToolModel dispatch fuel chat events = Option.none := by
    intro fuel
    induction fuel with
    | zero => intro chat events; rfl
    | succ n ih =>
        intro chat events
        simp only [runGo, alwaysToolModel]
        exact ih _ _
  intro fuel messages
  exact go fuel _ _

/-! ## C5 — pagination bound of find_list_id_by_name -/

theorem findListGo_completes (fetch : Option String → ListsPage)
    (extract : Option String → Option String) (name : String) :
    ∀ (fuel seen : Nat) (cursor : Option String) (acc : List ListRec),
      seen ≤ 25 → 26 ≤ fuel + seen →
      ∃ ms pages, findListGo fetch extract name fuel cursor acc seen = some (ms, pages) ∧
        pages ≤ 26 := by
  intro fuel
  induction fuel with
  | zero => intro seen cursor acc h1 h2; omega
  | succ n ih =>
      intro seen cursor acc h1 h2
      simp only [findListGo]
      by_cases hc :
          (!truthyStr (extract (fetch cursor).nextUrl) || decide (25 < seen + 1)) = true
      · rw [if_pos hc]
        exact ⟨_, _, rfl, by omega⟩
      · rw [if_neg hc]
        have hseen : seen + 1 ≤ 25 := by
          have hb : decide (25 < seen + 1) = false := by
            cases hd : decide (25 < seen + 1) with
            | false => rfl
            | true => simp [hd] at hc
          have := of_decide_eq_false hb
          omega
        exact ih (seen + 1) _ _ hseen (by omega)

/-- C5 counterexample: against a feed whose continuation cursor is never
empty, `find_list_id_by_name` (affinity/client_v2.py) is still running
after 25 page fetches — the `seen > 25` guard admits a 26th page — so it
does not terminate "after at most the page ceiling of 25 pages"; with fuel
for 26 iterations it returns having fetched 26 pages. -/
theorem find_list_25_pages_not_enough :
    find_list_id_by_name endlessListsFeed endlessExtract "pipeline" 25 = Option.none ∧
    find_list_id_by_name endlessListsFeed endlessExtract "pipeline" 26 = some ([], 26) := by
  constructor
  · rfl
  · rfl

/-- C5 (amended): the affinity/client_v2.py variant of
`find_list_id_by_name` terminates against every feed after at most 26 page
fetches, returning the matches accumulated so far; the client_v2.py
variant has no page ceiling and, against a feed that never returns an
empty continuation, never terminates (it is still running under every fuel
bound). -/
theorem find_list_terminates_within_26 :
    (∀ (fetch : Option String → ListsPage) (extract : Option String → Option String)
        (name : String),
      ∃ ms pages, find_list_id_by_name fetch extract name 26 = some (ms, pages) ∧ pages ≤ 26) ∧
    (∀ (name : String) (fuel : Nat) (cursor : Option String) (acc : List ListRec),
      findListGoUnbounded endlessListsFeed name fuel cursor acc = Option.none) := by
  constructor
  · intro fetch extract name
    exact findListGo_completes fetch extract name 26 0 Option.none [] (by omega) (by omega)
  · intro name fuel
    induction fuel with
    | zero => intro cursor acc; rfl
    | succ n ih =>
        intro cursor acc
        simp only [findListGoUnbounded, endlessListsFeed, truthyStr]
        exact ih _ _

/-! ## C7 — where the retry policy lives -/

theorem requestGo_count_le (responses : Nat → HttpResp) :
    ∀ (left attempt : Nat) (b : Rat) (sl : List Rat),
      (requestGo responses left attempt b sl).2.1 ≤ attempt + left := by
  intro left
  induction left with
  | zero => intro attempt b sl; simp [requestGo]
  | succ n ih =>
      intro attempt b sl
      simp only [requestGo]
      by_cases h1 : isTransientStatus (responses attempt).status = true
      · rw [if_pos h1]
        have := ih (attempt + 1) (b * 2) (sl ++ [b])
        omega
      · rw [if_neg h1]
        by_cases h2 : (decide (400 ≤ (responses attempt).status)) = true
        · rw [if_pos h2]
          show attempt + 1 ≤ attempt + (n + 1)
          omega
        · rw [if_neg h2]
          by_cases h3 : (responses attempt).body.nonempty = true
          · rw [if_pos h3]
            show attempt + 1 ≤ attempt + (n + 1)
            omega
          · rw [if_neg h3]
            show attempt + 1 ≤ attempt + (n + 1)
            omega

/-- C7 counterexample: the claim attributes the retry policy to the
current (bearer-token) surface, but `AffinityV2._req`
(affinity/client_v2.py) performs no retry at all — fed the first 429 of
the 429/429/200 scenario it raises a rate-limit error after exactly one
HTTP request, not three, and returns no 200 payload. -/
theorem v2_req_does_not_retry :
    (v2_req true { status := 429, body := .raw "rate limited" }).1 =
      .error (.rateLimited (.raw "rate limited")) ∧
    (v2_req true { status := 429, body := .raw "rate limited" }).2 = 1 ∧
    (1 : Nat) ≠ 3 := by
  exact ⟨rfl, rfl, by omega⟩

/-- C7 (amended): the described transport policy is implemented by the
legacy basic-auth `AffinityAPI._request`: it retries only on the
classified-transient statuses 429/500/502/503/504 (a non-transient first
response means exactly one HTTP request), attempts are bounded by the
retry count (3), and on responses 429, 429, 200 it sleeps 1s then 2s
(exponential backoff from 1s), makes exactly 3 requests and returns the
200 payload. -/
theorem v1_request_retry_policy :
    ((request scenario429Responses 3).1 = .ok (.vobj [("id", .vint 42)]) ∧
      (request scenario429Responses 3).2.1 = 3 ∧
      (request scenario429Responses 3).2.2 = [1, 2]) ∧
    (∀ responses : Nat → HttpResp,
      isTransientStatus (responses 0).status = false → (request responses 3).2.1 = 1) ∧
    (∀ responses : Nat → HttpResp, (request responses 3).2.1 ≤ 3) := by
  have hsleeps : (request scenario429Responses 3).2.2 = [(1 : Rat), 1 * 2] := rfl
  refine ⟨⟨rfl, rfl, by rw [hsleeps]; norm_num⟩, ?_, ?_⟩
  · intro responses h
    simp only [request, requestGo, h]
    by_cases h2 : (decide (400 ≤ (responses 0).status)) = true
    · simp [h2]
    · by_cases h3 : (responses 0).body.nonempty = true
      · simp [h2, h3]
      · simp [h2, h3]
  · intro responses
    simpa [request] using requestGo_count_le responses 3 0 1 []

/-- C7 witness: a 404 first response is not transient and the legacy
transport makes exactly one request. -/
theorem v1_request_retry_policy_witness :
    isTransientStatus (notFoundResponses 0).status = false ∧
    (request notFoundResponses 3).2.1 = 1 := by
  exact ⟨by decide, v1_request_retry_policy.2.1 notFoundResponses (by decide)⟩

/-! ## C8 — empty-body successes -/

/-- C8 counterexample: the legacy `AffinityAPI._request` returns `None`
(not an empty structured result) for a successful response with an empty
body, so "the request operation returns an empty object, never null"
fails on it. -/
theorem v1_request_empty_body_returns_none :
    (request emptyOkResponses 3).1 = V1Outcome.ok Val.vnone ∧
    V1Outcome.ok Val.vnone ≠ V1Outcome.ok (Val.vobj []) := by
  constructor
  · rfl
  · intro h
    injection h with h2
    exact Val.noConfusion h2

/-- C8 (amended): on the bearer-token transport `AffinityV2._req`
(affinity/client_v2.py), every successful response with an empty body —
status 204/205, or any success status with empty text — returns the empty
object, never null or an absent value; the legacy `AffinityAPI._request`
instead returns `None` in that situation (see the counterexample). -/
theorem v2_req_empty_success (resp : HttpResp)
    (h : resp.status = 204 ∨ resp.status = 205 ∨ (resp.status < 400 ∧ resp.body = Body.empty)) :
    (v2_req true resp).1 = .ok (Val.vobj []) := by
  rcases h with h | h | ⟨h1, h2⟩
  · simp [v2_req, h]
  · simp [v2_req, h]
  · by_cases h204 : (resp.status == 204 || resp.status == 205) = true
    · simp [v2_req, h204]
    · simp [v2_req, h204, h1, h2]

/-- C8 witness: a bodiless 204 yields the empty object. -/
theorem v2_req_empty_success_witness :
    (v2_req true { status := 204, body := Body.empty }).1 = .ok (Val.vobj []) :=
  v2_req_empty_success { status := 204, body := Body.empty } (Or.inl rfl)

/-! ## C2 — update if a field value exists, never a second create -/

/-- C2: when the organization is already on the list, the field resolves,
the value coerces, and a field value already exists for the (field,
list-entry) pair, `change_field_value_in_list` ends in an update of an
existing field value — the store keeps the same number of field values
overall and for the pair, so a pair holding at most one field value still
holds at most one. -/
theorem change_field_updates_existing (scorer : String → String → Rat) (s : ServerState)
    (listId o : Int) (key : FieldKey) (value : Val) (le fid : Int) (field : FieldRec) (cv : Val)
    (hle : get_list_entry_id s o = some le)
    (hf : get_field_details s.fields listId key = .ok (field, fid))
    (hc : coerce_value_for_field scorer field value = .ok cv)
    (hex : (get_field_values s o).filter
        (fun fv => fv.field_id == fid && fv.list_entry_id == le) ≠ []) :
    ∃ (s2 : ServerState) (fvId : Int),
      change_field_value_in_list scorer s listId o key value = .ok (s2, .updated fvId) ∧
      s2.fieldValues.length = s.fieldValues.length ∧
      (s2.fieldValues.filter (fun fv => fv.field_id == fid && fv.list_entry_id == le)).length =
        (s.fieldValues.filter (fun fv => fv.field_id == fid && fv.list_entry_id == le)).length := by
  have hmem : ensureMembership s o listId = .ok (s, le) := by
    simp [ensureMembership, hle]
  obtain ⟨fv0, rest, hfil⟩ :
      ∃ fv0 rest, (get_field_values s o).filter
        (fun fv => fv.field_id == fid && fv.list_entry_id == le) = fv0 :: rest := by
    cases hsplit : (get_field_values s o).filter
        (fun fv => fv.field_id == fid && fv.list_entry_id == le) with
    | nil => exact absurd hsplit hex
    | cons a t => exact ⟨a, t, rfl⟩
  refine ⟨update_field_value s fv0.id cv, fv0.id, ?_, ?_, ?_⟩
  · simp only [change_field_value_in_list, hmem, hf, hc, hfil]
  · simp [update_field_value]
  · have hpres : ∀ fv : FieldValueRec,
        ((if fv.id == fv0.id then { fv with value := cv } else fv).field_id == fid &&
          (if fv.id == fv0.id then { fv with value := cv } else fv).list_entry_id == le) =
        (fv.field_id == fid && fv.list_entry_id == le) := by
      intro fv
      by_cases h : (fv.id == fv0.id) = true
      · simp [h]
      · simp [h]
    simp only [update_field_value]
    rw [List.filter_map]
    rw [List.length_map]
    congr 1
    apply List.filter_congr
    intro x _
    simpa using hpres x

/-- C2 witness: in `fvListState` the pair (field 7, entry 10) already
holds field value 99; changing the field updates in place, with the store
size and the pair's field-value count unchanged. -/
theorem change_field_updates_existing_witness :
    ∃ (s2 : ServerState) (fvId : Int),
      change_field_value_in_list lowScorer fvListState 1 5 (.kint 7) (.vstr "new") =
        .ok (s2, .updated fvId) ∧
      s2.fieldValues.length = fvListState.fieldValues.length ∧
      (s2.fieldValues.filter (fun fv => fv.field_id == 7 && fv.list_entry_id == 10)).length =
        (fvListState.fieldValues.filter
          (fun fv => fv.field_id == 7 && fv.list_entry_id == 10)).length :=
  change_field_updates_existing lowScorer fvListState 1 5 (.kint 7) (.vstr "new") 10 7
    { id := 7, name := "Status", value_type := .vstr "text", dropdown_options := [] }
    (.vstr "new") rfl rfl rfl (by exact List.cons_ne_nil _ _)

/-! ## C9 — the dispatcher never raises -/

/-- C9: `dispatch_tool` always returns a structured value: an action name
outside the catalog yields `{error: "Unknown tool <name>"}`, any exception
raised while parsing arguments or executing a handler (an `Except.error`
of the try-block body) is converted into `{error: "Tool dispatcher error:
<detail>"}`, and in particular the scenario input `name="unknown_action",
args="{}"` yields the unknown-tool error without raising. -/
theorem dispatch_tool_total :
    (∀ (env : DispatchEnv) (name args : String), name ∉ knownToolNames →
      dispatch_tool env name args = errObj ("Unknown tool " ++ name)) ∧
    (∀ (env : DispatchEnv) (name args : String) (e : PyErr),
      dispatchBody env name args = .error e →
      dispatch_tool env name args = errObj ("Tool dispatcher error: " ++ e.msg)) ∧
    (∀ env : DispatchEnv, dispatch_tool env "unknown_action" "\x7b\x7d" =
      errObj "Unknown tool unknown_action") := by
  refine ⟨?_, ?_, ?_⟩
  · intro env name args h
    simp only [knownToolNames, List.mem_cons, List.not_mem_nil, or_false, not_or] at h
    obtain ⟨h1, h2, h3, h4, h5, h6, h7, h8, h9⟩ := h
    simp [dispatch_tool, dispatchBody, h1, h2, h3, h4, h5, h6, h7, h8, h9]
  · intro env name args e h
    simp [dispatch_tool, h]
  · intro env
    rfl

/-- C9 witness: an out-of-catalog name yields the unknown-tool error, and
a raising whoami handler is converted into a dispatcher error. -/
theorem dispatch_tool_total_witness :
    ("mystery_tool" ∉ knownToolNames ∧
      dispatch_tool trivialEnv "mystery_tool" "\x7b\x7d" =
        errObj ("Unknown tool " ++ "mystery_tool")) ∧
    (dispatchBody raisingEnv "auth_whoami" "\x7b\x7d" = .error (.exn "boom") ∧
      dispatch_tool raisingEnv "auth_whoami" "\x7b\x7d" =
        errObj ("Tool dispatcher error: " ++ (PyErr.exn "boom").msg)) :=
  ⟨⟨by decide, dispatch_tool_total.1 trivialEnv "mystery_tool" "\x7b\x7d" (by decide)⟩,
   ⟨rfl, dispatch_tool_total.2.1 raisingEnv "auth_whoami" "\x7b\x7d" (.exn "boom") rfl⟩⟩

/-! ## C10 — duplicate company rows in the plain find_company -/

/-- C10: a company matching both the name criterion and the domain
criterion is appended twice by the client_v2.py `find_company` (one append
per criterion), while the affinity/client_v2.py variant appends it once
per page: on a one-company page the former returns the projected row
twice, the latter once. -/
theorem plain_find_company_duplicates (c : CompanyRec) (n d : String)
    (hn : nameMatches (some n) c = true) (hd : domainMatches (some d) c = true) :
    plain_find_company (fun _ => { data := [c], nextUrl := Option.none }) (some n) (some d) =
      .ok [companyEntry c, companyEntry c] ∧
    affinityPageScan (some n) (some d) [c] = [companyEntry c] ∧
    affinity_find_company (fun _ => { data := [c], nextUrl := Option.none })
        (fun _ => Option.none) (some n) (some d) 10 10 =
      .ok (some ([companyEntry c], 1)) := by
  have htn : truthyStr (some n) = true := by
    have hn2 := hn
    simp only [nameMatches, Bool.and_eq_true] at hn2
    exact hn2.1
  have hcheck : (!truthyStr (some n) && !truthyStr (some d)) = false := by
    rw [htn]
    rfl
  refine ⟨?_, ?_, ?_⟩
  · simp [plain_find_company, hcheck, plainPageScan, hn, hd]
  · simp [affinityPageScan, hn]
  · have hnone : truthyStr Option.none = false := rfl
    simp [affinity_find_company, hcheck, findCompanyGo, affinityPageScan, hn, hnone]

/-! ## Lemmas on the option-text dictionary and the fuzzy scan -/

theorem pyDictInsert_mem (d : List (String × Int)) (k : String) (v : Int)
    (kv : String × Int) (h : kv ∈ pyDictInsert d k v) : kv = (k, v) ∨ kv ∈ d := by
  unfold pyDictInsert at h
  by_cases hc : (d.any (fun kv => kv.1 == k)) = true
  · rw [if_pos hc] at h
    obtain ⟨kv0, hkv0, heq⟩ := List.mem_map.mp h
    by_cases h0 : (kv0.1 == k) = true
    · left
      rw [← heq]
      simp [h0]
    · right
      rw [← heq]
      simp only [h0, if_false]
      exact hkv0
  · rw [if_neg hc] at h
    rcases List.mem_append.mp h with h1 | h1
    · right; exact h1
    · left; simpa using h1

theorem pyDictInsert_key_self (d : List (String × Int)) (k : String) (v : Int) :
    ∃ kv ∈ pyDictInsert d k v, kv.1 = k := by
  unfold pyDictInsert
  by_cases hc : (d.any (fun kv => kv.1 == k)) = true
  · rw [if_pos hc]
    obtain ⟨kv0, hkv0, hp⟩ := List.any_eq_true.mp hc
    refine ⟨(k, v), ?_, rfl⟩
    have hmm := List.mem_map_of_mem (fun kv => if (kv.1 == k) = true then (k, v) else kv) hkv0
    simpa [hp] using hmm
  · rw [if_neg hc]
    exact ⟨(k, v), List.mem_append.mpr (Or.inr (List.mem_singleton.mpr rfl)), rfl⟩

theorem pyDictInsert_key_mono (d : List (String × Int)) (k : String) (v : Int)
    (k0 : String) (h : ∃ kv ∈ d, kv.1 = k0) : ∃ kv ∈ pyDictInsert d k v, kv.1 = k0 := by
  obtain ⟨kv0, hkv0, hk0⟩ := h
  unfold pyDictInsert
  by_cases hc : (d.any (fun kv => kv.1 == k)) = true
  · rw [if_pos hc]
    by_cases h0 : (kv0.1 == k) = true
    · have hkk : kv0.1 = k := by simpa using h0
      refine ⟨(k, v), ?_, by rw [← hk0, hkk]⟩
      have hmm := List.mem_map_of_mem (fun kv => if (kv.1 == k) = true then (k, v) else kv) hkv0
      simpa [h0] using hmm
    · refine ⟨kv0, ?_, hk0⟩
      have hmm := List.mem_map_of_mem (fun kv => if (kv.1 == k) = true then (k, v) else kv) hkv0
      simpa [h0] using hmm
  · rw [if_neg hc]
    exact ⟨kv0, List.mem_append.mpr (Or.inl hkv0), hk0⟩

theorem byTextOf_go_mem (opts : List DropOption) :
    ∀ (d : List (String × Int)) (kv : String × Int),
      kv ∈ opts.foldl (fun d o => pyDictInsert d (normStr o.text) o.id) d →
      kv ∈ d ∨ ∃ o ∈ opts, kv.1 = normStr o.text ∧ kv.2 = o.id := by
  induction opts with
  | nil => intro d kv h; exact Or.inl h
  | cons o rest ih =>
      intro d kv h
      simp only [List.foldl_cons] at h
      rcases ih _ kv h with h1 | h1
      · rcases pyDictInsert_mem _ _ _ _ h1 with h2 | h2
        · right
          exact ⟨o, List.mem_cons_self o rest, by rw [h2]; exact ⟨rfl, rfl⟩⟩
        · left; exact h2
      · right
        obtain ⟨o2, ho2, hh⟩ := h1
        exact ⟨o2, List.mem_cons_of_mem _ ho2, hh⟩

theorem byTextOf_mem (opts : List DropOption) (kv : String × Int) (h : kv ∈ byTextOf opts) :
    ∃ o ∈ opts, kv.1 = normStr o.text ∧ kv.2 = o.id := by
  rcases byTextOf_go_mem opts [] kv h with h1 | h1
  · exact absurd h1 (List.not_mem_nil kv)
  · exact h1

theorem byTextOf_go_key_mono (opts : List DropOption) :
    ∀ (d : List (String × Int)) (k0 : String), (∃ kv ∈ d, kv.1 = k0) →
      ∃ kv ∈ opts.foldl (fun d o => pyDictInsert d (normStr o.text) o.id) d, kv.1 = k0 := by
  induction opts with
  | nil => intro d k0 h; exact h
  | cons o rest ih =>
      intro d k0 h
      simp only [List.foldl_cons]
      exact ih _ _ (pyDictInsert_key_mono _ _ _ _ h)

theorem byTextOf_go_key (opts : List DropOption) :
    ∀ (d : List (String × Int)) (o : DropOption), o ∈ opts →
      ∃ kv ∈ opts.foldl (fun d o => pyDictInsert d (normStr o.text) o.id) d,
        kv.1 = normStr o.text := by
  induction opts with
  | nil => intro d o h; exact absurd h (List.not_mem_nil o)
  | cons o1 rest ih =>
      intro d o h
      simp only [List.foldl_cons]
      rcases List.mem_cons.mp h with h1 | h1
      · subst h1
        exact byTextOf_go_key_mono rest _ _ (pyDictInsert_key_self d (normStr o.text) o.id)
      · exact ih _ o h1

theorem byTextOf_key_of_mem (opts : List DropOption) (o : DropOption) (h : o ∈ opts) :
    ∃ kv ∈ byTextOf opts, kv.1 = normStr o.text :=
  byTextOf_go_key opts [] o h

theorem byTextOf_get_none (opts : List DropOption) (key : String)
    (h : ∀ o ∈ opts, normStr o.text ≠ key) :
    pyDictGet (byTextOf opts) key = Option.none := by
  unfold pyDictGet
  cases hf : (byTextOf opts).find? (fun kv => kv.1 == key) with
  | none => rfl
  | some kv =>
      have hmem := List.mem_of_find?_eq_some hf
      have hpred := List.find?_some hf
      obtain ⟨o, ho, hk, _⟩ := byTextOf_mem opts kv hmem
      have hkey : kv.1 = key := by simpa using hpred
      exact absurd (by rw [← hk]; exact hkey) (h o ho)

theorem byTextOf_get_sound (opts : List DropOption) (key : String) (i : Int)
    (h : pyDictGet (byTextOf opts) key = some i) :
    ∃ o ∈ opts, normStr o.text = key ∧ o.id = i := by
  unfold pyDictGet at h
  cases hf : (byTextOf opts).find? (fun kv => kv.1 == key) with
  | none => rw [hf] at h; exact absurd h (by simp)
  | some kv =>
      rw [hf] at h
      have h2 : kv.2 = i := by simpa using h
      have hmem := List.mem_of_find?_eq_some hf
      have hpred := List.find?_some hf
      obtain ⟨o, ho, hk1, hk2⟩ := byTextOf_mem opts kv hmem
      refine ⟨o, ho, ?_, ?_⟩
      · rw [← hk1]; simpa using hpred
      · rw [← hk2]; exact h2

theorem byTextOf_get_some (opts : List DropOption) (key : String)
    (h : ∃ o ∈ opts, normStr o.text = key) :
    ∃ i, pyDictGet (byTextOf opts) key = some i := by
  obtain ⟨o, ho, hk⟩ := h
  obtain ⟨kv, hkv, hkey⟩ := byTextOf_key_of_mem opts o ho
  have hsome : ((byTextOf opts).find? (fun kv => kv.1 == key)).isSome := by
    rw [List.find?_isSome]
    exact ⟨kv, hkv, by simp [hkey, hk]⟩
  unfold pyDictGet
  cases hf : (byTextOf opts).find? (fun kv => kv.1 == key) with
  | none => rw [hf] at hsome; exact absurd hsome (by simp)
  | some kv2 => exact ⟨kv2.2, by simp⟩

theorem closestOption_go (scorer : String → String → Rat) (s : String) :
    ∀ (opts : List DropOption) (b0 : DropOption) (sc0 : Rat),
      ∃ b sc,
        opts.foldl (closestStep scorer s) (some (b0, sc0)) = some (b, sc) ∧
        ((b = b0 ∧ sc = sc0) ∨ (b ∈ opts ∧ sc = scorer s b.text)) ∧
        sc0 ≤ sc ∧ ∀ o ∈ opts, scorer s o.text ≤ sc := by
  intro opts
  induction opts with
  | nil =>
      intro b0 sc0
      exact ⟨b0, sc0, rfl, Or.inl ⟨rfl, rfl⟩, le_refl _, by simp⟩
  | cons o rest ih =>
      intro b0 sc0
      simp only [List.foldl_cons]
      have hstep : closestStep scorer s (some (b0, sc0)) o =
          if sc0 < scorer s o.text then some (o, scorer s o.text) else some (b0, sc0) := rfl
      by_cases hlt : sc0 < scorer s o.text
      · rw [hstep, if_pos hlt]
        obtain ⟨b, sc, heq, hb, hle, hall⟩ := ih o (scorer s o.text)
        refine ⟨b, sc, heq, ?_, le_trans (le_of_lt hlt) hle, ?_⟩
        · rcases hb with ⟨hb1, hb2⟩ | ⟨hb1, hb2⟩
          · right
            exact ⟨by rw [hb1]; exact List.mem_cons_self o rest, by rw [hb2, hb1]⟩
          · right
            exact ⟨List.mem_cons_of_mem _ hb1, hb2⟩
        · intro o2 ho2
          rcases List.mem_cons.mp ho2 with h | h
          · rw [h]; exact hle
          · exact hall o2 h
      · rw [hstep, if_neg hlt]
        obtain ⟨b, sc, heq, hb, hle, hall⟩ := ih b0 sc0
        refine ⟨b, sc, heq, ?_, hle, ?_⟩
        · rcases hb with h | ⟨h1, h2⟩
          · exact Or.inl h
          · exact Or.inr ⟨List.mem_cons_of_mem _ h1, h2⟩
        · intro o2 ho2
          rcases List.mem_cons.mp ho2 with h | h
          · rw [h]; exact le_trans (not_lt.mp hlt) hle
          · exact hall o2 h

theorem closestOption_spec (scorer : String → String → Rat) (opts : List DropOption)
    (s : String) (hne : opts ≠ []) :
    ∃ b sc, closestOption scorer opts s = some (b, sc) ∧ b ∈ opts ∧
      sc = scorer s b.text ∧ ∀ o ∈ opts, scorer s o.text ≤ sc := by
  cases opts with
  | nil => exact absurd rfl hne
  | cons o rest =>
      unfold closestOption
      simp only [List.foldl_cons]
      have hstep : closestStep scorer s Option.none o = some (o, scorer s o.text) := rfl
      rw [hstep]
      obtain ⟨b, sc, heq, hb, hle, hall⟩ := closestOption_go scorer s rest o (scorer s o.text)
      refine ⟨b, sc, heq, ?_, ?_, ?_⟩
      · rcases hb with ⟨h1, _⟩ | ⟨h1, _⟩
        · rw [h1]; exact List.mem_cons_self o rest
        · exact List.mem_cons_of_mem _ h1
      · rcases hb with ⟨h1, h2⟩ | ⟨_, h2⟩
        · rw [h2, h1]
        · exact h2
      · intro o2 ho2
        rcases List.mem_cons.mp ho2 with h | h
        · rw [h]; exact hle
        · exact hall o2 h

/-- The single-string dropdown path taken when no exact match, no
substring match and no all-digit literal applies: the outcome is exactly
the fuzzy step's. -/
theorem coerce_fuzzy_path (scorer : String → String → Rat) (field : FieldRec) (v : String)
    (hopts : field.dropdown_options ≠ [])
    (hnoc : strIn "," v = false)
    (hnoexact : ∀ o ∈ field.dropdown_options, normStr o.text ≠ normStr v)
    (hnosub : ∀ o ∈ field.dropdown_options, strIn (normStr v) (normStr o.text) = false)
    (hnodig : pyIsDigit v = false) :
    coerce_value_for_field scorer field (.vstr v) =
      (match fuzzyOne scorer field.dropdown_options v with
       | some oid => Except.ok (.vint oid)
       | Option.none =>
           Except.error
             (.valueNotFound v (field.dropdown_options.map (fun o => o.text)))) := by
  have hget : pyDictGet (byTextOf field.dropdown_options) (normStr v) = Option.none :=
    byTextOf_get_none _ _ hnoexact
  have hfind : (byTextOf field.dropdown_options).find?
      (fun kv => strIn (normStr v) kv.1) = Option.none := by
    rw [List.find?_eq_none]
    intro kv hkv
    obtain ⟨o, ho, hk, _⟩ := byTextOf_mem _ kv hkv
    rw [hk]
    simp [hnosub o ho]
  have hcs : commaSplit field.dropdown_options (.vstr v) = .vstr v := by
    simp [commaSplit, hnoc]
  have hne : field.dropdown_options.isEmpty = false := by
    cases hopt2 : field.dropdown_options with
    | nil => exact absurd hopt2 hopts
    | cons _ _ => rfl
  simp only [coerce_value_for_field, hcs, hne, Bool.false_eq_true, if_false,
    coerceSingleStr, hget, hfind, hnodig]

/-! ## C3 — the fuzzy threshold -/

/-- C3: for a dropdown field with options and a single (comma-free) string
value that matches no option text exactly or by substring and is not all
digits: if every option scores below the 0.6 threshold
(`minScoreDefault`), coercion fails with the value-not-found error listing
every option text; if exactly one option scores at or above the threshold,
coercion returns that option's id. -/
theorem dropdown_fuzzy_threshold (scorer : String → String → Rat) (field : FieldRec)
    (v : String)
    (hopts : field.dropdown_options ≠ [])
    (hnoc : strIn "," v = false)
    (hnoexact : ∀ o ∈ field.dropdown_options, normStr o.text ≠ normStr v)
    (hnosub : ∀ o ∈ field.dropdown_options, strIn (normStr v) (normStr o.text) = false)
    (hnodig : pyIsDigit v = false) :
    ((∀ o ∈ field.dropdown_options, scorer v o.text < minScoreDefault) →
      coerce_value_for_field scorer field (.vstr v) =
        .error (.valueNotFound v (field.dropdown_options.map (fun o => o.text)))) ∧
    (∀ o0 ∈ field.dropdown_options, minScoreDefault ≤ scorer v o0.text →
      (∀ o ∈ field.dropdown_options, minScoreDefault ≤ scorer v o.text → o = o0) →
      coerce_value_for_field scorer field (.vstr v) = .ok (.vint o0.id)) := by
  have hpath := coerce_fuzzy_path scorer field v hopts hnoc hnoexact hnosub hnodig
  constructor
  · intro hlow
    rw [hpath]
    obtain ⟨b, sc, heq, hbmem, hsc, hall⟩ := closestOption_spec scorer _ v hopts
    have hfz : fuzzyOne scorer field.dropdown_options v = Option.none := by
      unfold fuzzyOne
      rw [heq]
      have hlt : sc < minScoreDefault := by rw [hsc]; exact hlow b hbmem
      show (if minScoreDefault ≤ sc then some b.id else Option.none) = Option.none
      rw [if_neg (not_le.mpr hlt)]
    rw [hfz]
  · intro o0 ho0 hscore huniq
    rw [hpath]
    obtain ⟨b, sc, heq, hbmem, hsc, hall⟩ := closestOption_spec scorer _ v hopts
    have hscge : minScoreDefault ≤ sc := le_trans hscore (hall o0 ho0)
    have hbo : b = o0 := huniq b hbmem (by rw [← hsc]; exact hscge)
    have hfz : fuzzyOne scorer field.dropdown_options v = some o0.id := by
      unfold fuzzyOne
      rw [heq]
      show (if minScoreDefault ≤ sc then some b.id else Option.none) = some o0.id
      rw [if_pos hscge, hbo]
    rw [hfz]

/-- C3 witness: "Quallified" matches nothing exactly or by substring, is
not digits, and scores 0.7 against "Qualified" only, so it coerces to
option id 1. -/
theorem dropdown_fuzzy_threshold_witness :
    coerce_value_for_field witnessScorer qualifiedField (.vstr "Quallified") = .ok (.vint 1) := by
  have hts : witnessScorer "Quallified" "Turned Down" = 1 / 10 := by
    simp [witnessScorer]
  have hqs : witnessScorer "Quallified" "Qualified" = 7 / 10 := by
    simp [witnessScorer]
  refine (dropdown_fuzzy_threshold witnessScorer qualifiedField "Quallified"
      (by decide) (by decide) (by decide) (by decide) (by decide)).2
    { id := 1, text := "Qualified" } (by decide) ?_ ?_
  · rw [hqs]
    norm_num [minScoreDefault]
  · intro o ho h
    fin_cases ho
    · rfl
    · rw [hts] at h
      norm_num [minScoreDefault] at h

/-! ## C6 — the single-string dropdown resolution order -/

/-- With options present and no comma in the string, coercion is the
single-string dropdown block. -/
theorem coerce_single_path (scorer : String → String → Rat) (field : FieldRec) (v : String)
    (hnoc : strIn "," v = false) (hne : field.dropdown_options.isEmpty = false) :
    coerce_value_for_field scorer field (.vstr v) =
      coerceSingleStr scorer field.dropdown_options (byTextOf field.dropdown_options) v := by
  have hcs : commaSplit field.dropdown_options (.vstr v) = .vstr v := by
    simp [commaSplit, hnoc]
  simp only [coerce_value_for_field, hcs, hne, Bool.false_eq_true, if_false]

/-- C6: for a dropdown field with options and a single (comma-free) string
value, coercion normalizes (strip, lower) and tries in order with the
first match winning: (a) an exact normalized option-text match returns a
matching option's id; (b) failing that, a substring match (normalized
value contained in a normalized option text) returns such an option's id;
(c) failing both, an all-digits value is returned as a literal option id;
(d) otherwise the fuzzy step decides, its failure raising the
value-not-found error; and (e) in particular on the field
`{options: [{id:1,"Qualified"},{id:2,"Turned Down"}]}` the input
"turned down" coerces to 2. -/
theorem dropdown_single_string_order (scorer : String → String → Rat) (field : FieldRec)
    (v : String) (hopts : field.dropdown_options ≠ []) (hnoc : strIn "," v = false) :
    ((∃ o ∈ field.dropdown_options, normStr o.text = normStr v) →
      ∃ o ∈ field.dropdown_options, normStr o.text = normStr v ∧
        coerce_value_for_field scorer field (.vstr v) = .ok (.vint o.id)) ∧
    ((∀ o ∈ field.dropdown_options, normStr o.text ≠ normStr v) →
      (∃ o ∈ field.dropdown_options, strIn (normStr v) (normStr o.text) = true) →
      ∃ o ∈ field.dropdown_options, strIn (normStr v) (normStr o.text) = true ∧
        coerce_value_for_field scorer field (.vstr v) = .ok (.vint o.id)) ∧
    ((∀ o ∈ field.dropdown_options, normStr o.text ≠ normStr v) →
      (∀ o ∈ field.dropdown_options, strIn (normStr v) (normStr o.text) = false) →
      pyIsDigit v = true →
      coerce_value_for_field scorer field (.vstr v) = .ok (.vint (digitsToNat v))) ∧
    ((∀ o ∈ field.dropdown_options, normStr o.text ≠ normStr v) →
      (∀ o ∈ field.dropdown_options, strIn (normStr v) (normStr o.text) = false) →
      pyIsDigit v = false →
      coerce_value_for_field scorer field (.vstr v) =
        (match fuzzyOne scorer field.dropdown_options v with
         | some oid => Except.ok (.vint oid)
         | Option.none =>
             Except.error
               (.valueNotFound v (field.dropdown_options.map (fun o => o.text))))) ∧
    (coerce_value_for_field scorer qualifiedField (.vstr "turned down") = .ok (.vint 2)) := by
  have hne : field.dropdown_options.isEmpty = false := by
    cases h2 : field.dropdown_options with
    | nil => exact absurd h2 hopts
    | cons _ _ => rfl
  have hpath := coerce_single_path scorer field v hnoc hne
  refine ⟨?_, ?_, ?_, ?_, ?_⟩
  · intro hex
    obtain ⟨i, hget⟩ := byTextOf_get_some field.dropdown_options (normStr v) hex
    obtain ⟨o, ho, hno, hid⟩ := byTextOf_get_sound field.dropdown_options (normStr v) i hget
    refine ⟨o, ho, hno, ?_⟩
    rw [hpath]
    simp only [coerceSingleStr, hget, hid]
  · intro hnoex hsub
    have hget : pyDictGet (byTextOf field.dropdown_options) (normStr v) = Option.none :=
      byTextOf_get_none _ _ hnoex
    obtain ⟨o, ho, hstr⟩ := hsub
    obtain ⟨kv, hkv, hkey⟩ := byTextOf_key_of_mem field.dropdown_options o ho
    have hsome : ((byTextOf field.dropdown_options).find?
        (fun kv => strIn (normStr v) kv.1)).isSome := by
      rw [List.find?_isSome]
      exact ⟨kv, hkv, by rw [hkey]; exact hstr⟩
    cases hf : (byTextOf field.dropdown_options).find? (fun kv => strIn (normStr v) kv.1) with
    | none => rw [hf] at hsome; exact absurd hsome (by simp)
    | some kv0 =>
        have hmem0 := List.mem_of_find?_eq_some hf
        have hpred0 := List.find?_some hf
        obtain ⟨o2, ho2, hk1, hk2⟩ := byTextOf_mem field.dropdown_options kv0 hmem0
        refine ⟨o2, ho2, by rw [← hk1]; exact hpred0, ?_⟩
        rw [hpath]
        simp only [coerceSingleStr, hget, hf, hk2]
  · intro hnoex hnosub hdig
    have hget : pyDictGet (byTextOf field.dropdown_options) (normStr v) = Option.none :=
      byTextOf_get_none _ _ hnoex
    have hfind : (byTextOf field.dropdown_options).find?
        (fun kv => strIn (normStr v) kv.1) = Option.none := by
      rw [List.find?_eq_none]
      intro kv hkv
      obtain ⟨o, ho, hk, _⟩ := byTextOf_mem _ kv hkv
      rw [hk]
      simp [hnosub o ho]
    rw [hpath]
    simp only [coerceSingleStr, hget, hfind, hdig, if_true]
  · intro hnoex hnosub hdig
    exact coerce_fuzzy_path scorer field v hopts hnoc hnoex hnosub hdig
  · rfl

/-- C6 witness: "  QUALIFIED  " normalizes to "qualified" and matches the
option text "Qualified" exactly, coercing to its id. -/
theorem dropdown_single_string_order_witness :
    ∃ o ∈ qualifiedField.dropdown_options, normStr o.text = normStr "  QUALIFIED  " ∧
      coerce_value_for_field lowScorer qualifiedField (.vstr "  QUALIFIED  ") =
        .ok (.vint o.id) :=
  (dropdown_single_string_order lowScorer qualifiedField "  QUALIFIED  "
      (by decide) (by decide)).1 (by decide)

/-- C10 witness: `acmeCompany` matches name "acme" and domain "acme.com";
the plain variant returns its row twice, the affinity variant once. -/
theorem plain_find_company_duplicates_witness :
    plain_find_company (fun _ => { data := [acmeCompany], nextUrl := Option.none })
        (some "acme") (some "acme.com") =
      .ok [companyEntry acmeCompany, companyEntry acmeCompany] ∧
    affinityPageScan (some "acme") (some "acme.com") [acmeCompany] = [companyEntry acmeCompany] ∧
    affinity_find_company (fun _ => { data := [acmeCompany], nextUrl := Option.none })
        (fun _ => Option.none) (some "acme") (some "acme.com") 10 10 =
      .ok (some ([companyEntry acmeCompany], 1)) :=
  plain_find_company_duplicates acmeCompany "acme" "acme.com" (by decide) (by decide)

end Affinity
